import Mathlib

/-!
# Verification of DataTransformGPT's distributed coordination engine

Shallow embedding of the chunked job-distribution core of the
DataTransformGPT repository:

* `src/core/distributed_core.py` — `DistributedTransformCore` (chunk
  splitter `_split_dataframe`, orchestrator `process_dataframe`,
  polling loop `_wait_for_results`; note the file defines
  `_wait_for_results` twice, so the second definition at lines 226-273
  is the one in effect);
* `src/utils/redis_utils.py` — `RedisManager` (the coordination store:
  job metadata, task queue, result blobs, `increment_completed`,
  `cleanup_job`, `_test_connection`);
* `src/workers/worker.py` — the worker loop's interaction with the
  store (one `increment_completed` per finished chunk).

Dataframes are modelled as lists of rows; a row is an association list
from column name to cell text (pandas cells are stringified with `str`
before use).  Machine floats appear only in the comparison
`last_chunk_size < CHUNK_SIZE * 0.5`, which is exact on the integers
involved and is embedded as `2 * last < chunkSize`.
-/

namespace DataTransform

/-- `CHUNK_SIZE` from `config.py`. -/
def CHUNK_SIZE : Nat := 50

/-- Size of chunk number `i` in `_split_dataframe` (line 48 of
`distributed_core.py`): `base_chunk_size + (1 if i < remainder else 0)`. -/
def csize (base rem i : Nat) : Nat := base + (if i < rem then 1 else 0)

/-- The chunk-building loop of `_split_dataframe` (lines 41-55): starting
from row index `start` with loop counter `i`, emit `n` contiguous
half-open row ranges, accumulating `start_idx` exactly as the source does. -/
def buildRanges (base rem : Nat) : Nat → Nat → Nat → List (Nat × Nat)
  | _start, _i, 0 => []
  | start, i, n+1 =>
    (start, start + csize base rem i) ::
      buildRanges base rem (start + csize base rem i) (i+1) n

/-- Number of chunks chosen by `_split_dataframe` (lines 30-35) when
`total_rows > CHUNK_SIZE`: `ceil(total/c)`, decremented by one when the
division leaves a positive remainder smaller than half of `c`.  The
source's float test `last_chunk_size < CHUNK_SIZE * 0.5` is exact on
these integers and is rendered as `2 * (total % c) < c`. -/
def numChunks (total c : Nat) : Nat :=
  if 1 < (total + c - 1) / c ∧ 0 < total % c ∧ 2 * (total % c) < c then
    (total + c - 1) / c - 1
  else (total + c - 1) / c

/-- `_split_dataframe` (lines 20-62) as a function from a row count and
the configured chunk size to the list of half-open row ranges of the
produced chunks.  A dataframe of at most `CHUNK_SIZE` rows — including an
empty one — is returned as one single chunk (lines 25-27). -/
def chunkRanges (total c : Nat) : List (Nat × Nat) :=
  if total ≤ c then [(0, total)]
  else buildRanges (total / numChunks total c) (total % numChunks total c)
    0 0 (numChunks total c)

/-- The sizes of a list of row ranges (`[len(chunk) for chunk in chunks]`). -/
def chunkSizes (rs : List (Nat × Nat)) : List Nat := rs.map (fun r => r.2 - r.1)

/-- The rows covered by a list of row ranges, in order. -/
def joinRanges (rs : List (Nat × Nat)) : List Nat :=
  (rs.map (fun r => List.range' r.1 (r.2 - r.1))).flatten

/-- Total number of rows put into chunks `i, i+1, …, i+n-1`. -/
def sizeSum (base rem : Nat) : Nat → Nat → Nat
  | _i, 0 => 0
  | i, n+1 => csize base rem i + sizeSum base rem (i+1) n

lemma joinRanges_cons (r : Nat × Nat) (rs : List (Nat × Nat)) :
    joinRanges (r :: rs) = List.range' r.1 (r.2 - r.1) ++ joinRanges rs := by
  simp [joinRanges]

lemma joinRanges_buildRanges (base rem : Nat) :
    ∀ n start i, joinRanges (buildRanges base rem start i n) =
      List.range' start (sizeSum base rem i n) := by
  intro n
  induction n with
  | zero => intro start i; simp [buildRanges, joinRanges, sizeSum]
  | succ n ih =>
    intro start i
    rw [buildRanges, joinRanges_cons, ih, sizeSum]
    have h1 : start + csize base rem i - start = csize base rem i := by omega
    simp only [h1]
    rw [List.range'_append_1, Nat.add_comm]

lemma sizeSum_eq (base rem : Nat) :
    ∀ n i, sizeSum base rem i n = n * base + (min rem (i + n) - min rem i) := by
  intro n
  induction n with
  | zero => intro i; simp [sizeSum]
  | succ n ih =>
    intro i
    rw [sizeSum, ih (i+1), csize]
    have hsm : (n + 1) * base = n * base + base := Nat.succ_mul n base
    rcases Nat.lt_or_ge i rem with h | h
    · rw [if_pos h]; omega
    · rw [if_neg (Nat.not_lt.mpr h)]; omega

lemma sizeSum_zero (base rem n : Nat) :
    sizeSum base rem 0 n = n * base + min rem n := by
  rw [sizeSum_eq]
  omega

lemma buildRanges_mem_size (base rem : Nat) :
    ∀ n start i r, r ∈ buildRanges base rem start i n → r.2 = r.1 + csize base rem i ∨
      base ≤ r.2 - r.1 := by
  intro n
  induction n with
  | zero => intro start i r h; simp [buildRanges] at h
  | succ n ih =>
    intro start i r h
    rw [buildRanges] at h
    rcases List.mem_cons.mp h with h | h
    · left; rw [h]
    · rcases ih _ _ r h with h2 | h2
      · right; rw [h2, csize]; omega
      · right; exact h2

lemma buildRanges_size_lower (base rem : Nat) (n start i : Nat) (r : Nat × Nat)
    (h : r ∈ buildRanges base rem start i n) : base ≤ r.2 - r.1 := by
  rcases buildRanges_mem_size base rem n start i r h with h2 | h2
  · rw [h2, csize]; omega
  · exact h2

lemma numChunks_pos (total c : Nat) (hc : 0 < c) (h : c < total) :
    0 < numChunks total c := by
  have h2 : 2 ≤ (total + c - 1) / c := by
    rw [Nat.le_div_iff_mul_le hc]; omega
  unfold numChunks
  split <;> omega

lemma numChunks_le_total (total c : Nat) (hc : 0 < c) (h : c < total) :
    numChunks total c ≤ total := by
  have hmul : total ≤ total * c := Nat.le_mul_of_pos_right total hc
  have hsm : (total + 1) * c = total * c + c := Nat.succ_mul total c
  have h2 : (total + c - 1) / c < total + 1 := by
    rw [Nat.div_lt_iff_lt_mul hc]
    omega
  unfold numChunks
  split <;> omega

/-- The size of the tail chunk if `ceil(total/c)` chunks of size `c` were
kept: `total % c` when that is positive, else exactly `c`. -/
def lastWouldBe (total c : Nat) : Nat := if total % c = 0 then c else total % c

/-- Claim C2 (amended): for every `total_rows` and positive `chunk_size`,
concatenating the Chunk Splitter's output ranges reproduces
`[0, total_rows)` exactly — no gaps, no overlaps, no duplicated rows —
and every chunk is non-empty whenever `total_rows > 0`; however, for
`total_rows = 0` the splitter returns one single chunk covering zero
rows, not the empty list of chunks. -/
theorem splitter_is_partition (total c : Nat) (hc : 0 < c) :
    joinRanges (chunkRanges total c) = List.range total ∧
    (0 < total → ∀ r ∈ chunkRanges total c, r.1 < r.2) ∧
    chunkRanges 0 c = [(0, 0)] := by
  refine ⟨?_, ?_, ?_⟩
  · unfold chunkRanges
    split
    · simp [joinRanges, List.range_eq_range']
    · rename_i h
      push_neg at h
      have hn := numChunks_pos total c hc h
      rw [joinRanges_buildRanges, sizeSum_zero]
      have hrem : total % numChunks total c < numChunks total c :=
        Nat.mod_lt _ hn
      have hdm : numChunks total c * (total / numChunks total c) +
          total % numChunks total c = total := Nat.div_add_mod total _
      rw [List.range_eq_range']
      congr 1
      omega
  · intro ht r hr
    unfold chunkRanges at hr
    split at hr
    · simp only [List.mem_singleton] at hr
      rw [hr]
      exact ht
    · rename_i h
      push_neg at h
      have hn := numChunks_pos total c hc h
      have hle := numChunks_le_total total c hc h
      have hbase : 1 ≤ total / numChunks total c :=
        (Nat.one_le_div_iff hn).mpr hle
      have hlow := buildRanges_size_lower _ _ _ _ _ r hr
      omega
  · simp [chunkRanges]

/-- Witness for `splitter_is_partition` at `total_rows = 120`,
`chunk_size = 50`. -/
theorem splitter_is_partition_witness :
    0 < 50 ∧
    (joinRanges (chunkRanges 120 50) = List.range 120 ∧
     (0 < 120 → ∀ r ∈ chunkRanges 120 50, r.1 < r.2) ∧
     chunkRanges 0 50 = [(0, 0)]) :=
  ⟨by decide, splitter_is_partition 120 50 (by decide)⟩

/-- Claim C2, counterexample to the claim as stated: with the configured
chunk size 50, splitting a 0-row dataframe yields one chunk covering the
empty range, not the empty list of chunks (so the output also contains
an empty chunk). -/
theorem splitter_zero_rows_counterexample :
    chunkRanges 0 50 = [(0, 0)] ∧ chunkRanges 0 50 ≠ [] := by decide

/-- Claim C3, counterexample to the claim as stated: for 120 rows and
chunk size 50 the splitter does not produce 3 chunks of sizes
`[40, 40, 40]` — the remainder `120 % 50 = 20` is smaller than 25, so
the merge rule fires. -/
theorem splitter_120_rows_counterexample :
    (chunkRanges 120 50).length ≠ 3 ∧
    chunkSizes (chunkRanges 120 50) ≠ [40, 40, 40] := by decide

/-- Claim C3 (amended): for 120 rows and chunk size 50 the splitter
produces exactly 2 chunks, of sizes `[60, 60]`: `ceil(120/50) = 3`, but
the tail size `120 % 50 = 20` is positive and below half of 50, so the
chunk count is decremented to 2. -/
theorem splitter_120_rows_two_chunks :
    (chunkRanges 120 50).length = 2 ∧
    chunkSizes (chunkRanges 120 50) = [60, 60] := by decide

/-- Claim C5: whenever `total_rows > chunk_size > 0`, the splitter's
chunk count is `ceil(total/c)` decremented by one exactly when the last
chunk would be smaller than half of `chunk_size` (the tail a full-size
split would leave); in particular 60 rows with chunk size 50 give one
single chunk of size 60. -/
theorem numChunks_merges_small_tail (total c : Nat) (hc : 0 < c)
    (h : c < total) :
    numChunks total c =
      (total + c - 1) / c - (if 2 * lastWouldBe total c < c then 1 else 0) ∧
    chunkSizes (chunkRanges 60 50) = [60] := by
  constructor
  · have h2 : 2 ≤ (total + c - 1) / c := by
      rw [Nat.le_div_iff_mul_le hc]; omega
    unfold numChunks lastWouldBe
    by_cases hcond : 1 < (total + c - 1) / c ∧ 0 < total % c ∧
        2 * (total % c) < c
    · rw [if_pos hcond, if_neg (by omega : ¬ total % c = 0),
        if_pos hcond.2.2]
    · rw [if_neg hcond]
      by_cases hm : total % c = 0
      · rw [if_pos hm, if_neg (by omega : ¬ 2 * c < c)]
        omega
      · rw [if_neg hm]
        have hnot : ¬ 2 * (total % c) < c := fun hlt =>
          hcond ⟨by omega, by omega, hlt⟩
        rw [if_neg hnot]
        omega
  · decide

/-- Witness for `numChunks_merges_small_tail` at `total_rows = 120`,
`chunk_size = 50`. -/
theorem numChunks_merges_small_tail_witness :
    0 < 50 ∧ 50 < 120 ∧
    (numChunks 120 50 =
        (120 + 50 - 1) / 50 -
          (if 2 * lastWouldBe 120 50 < 50 then 1 else 0) ∧
     chunkSizes (chunkRanges 60 50) = [60]) :=
  ⟨by decide, by decide, numChunks_merges_small_tail 120 50 (by decide)
    (by decide)⟩

/-! ## Coordination store (`src/utils/redis_utils.py`) -/

/-- A dataframe row: association list from column name to the cell's text
(pandas cells are passed through `str` before every use in the core). -/
abbrev Row := List (String × String)

/-- `str(df.at[idx, col])`: the row's cell in column `col`. -/
def cellStr (row : Row) (col : String) : String :=
  (row.lookup col).getD ""

/-- Job metadata hash written by `set_job_metadata` for a transform job
(`process_dataframe` lines 93-102).  The serialized command map
(`json.dumps(column_commands)`) is kept in structured form, since the
core only round-trips it. -/
structure JobMeta where
  totalChunks : Nat
  completedChunks : Nat
  status : String
  commands : List (String × String)
  taskType : String
deriving DecidableEq

/-- A queued task (`process_dataframe` lines 105-113); the chunk's
serialized dataframe (`chunk.to_json()`) is kept as its row list. -/
structure Task where
  jobId : String
  chunkId : Nat
  data : List Row
  totalChunks : Nat
  taskType : String
deriving DecidableEq

/-- The shared coordination store: per-job metadata hashes
(`job:{job_id}`), per-(job, chunk) result blobs (`result:{job}:{chunk}`),
and the `task_queue` list. -/
structure Store where
  jobs : List (String × JobMeta)
  results : List (String × Nat × List Row)
  queue : List Task
deriving DecidableEq

/-- `RedisManager.set_job_metadata`: `HSET job:{id}` — the new hash entry
shadows any older one under the same key. -/
def setJobMetadata (s : Store) (jobId : String) (m : JobMeta) : Store :=
  { s with jobs := (jobId, m) :: s.jobs }

/-- `RedisManager.add_task`: `LPUSH task_queue`. -/
def addTask (s : Store) (t : Task) : Store :=
  { s with queue := t :: s.queue }

/-- `RedisManager.get_result`: `GET result:{job}:{chunk}`. -/
def getResult (s : Store) (jobId : String) (cid : Nat) : Option (List Row) :=
  (s.results.find? (fun r => r.1 == jobId && r.2.1 == cid)).map
    (fun r => r.2.2)

/-- `RedisManager.cleanup_job` (lines 103-112): delete the job's
metadata hash and every key matching `result:{job}:*`. -/
def cleanupJob (s : Store) (jobId : String) : Store :=
  { s with
    jobs := s.jobs.filter (fun p => p.1 != jobId),
    results := s.results.filter (fun r => r.1 != jobId) }

/-! ## Orchestrator construction (claim C1)

`DistributedTransformCore.__init__` (distributed_core.py lines 16-18)
runs `self.redis = RedisManager()`; `RedisManager.__init__` calls
`_test_connection`, which re-raises any `redis.ConnectionError` from
`ping()` as `Exception(f"Could not connect to Redis: {e}")`
(redis_utils.py lines 30-36).  Nothing in either constructor catches
that exception.  (`SnowflakeHandler()` is constructed only after the
store connection succeeded, and is outside the claims' scope.) -/

/-- Outcome of the `ping()` call issued by `_test_connection`. -/
inductive PingOutcome
  | ok
  | connError (msg : String)
deriving DecidableEq

/-- `RedisManager._test_connection`: succeed on a reachable store,
otherwise raise `Could not connect to Redis: …`. -/
def testConnection : PingOutcome → Except String Unit
  | .ok => .ok ()
  | .connError m => .error ("Could not connect to Redis: " ++ m)

/-- The constructed `RedisManager` (its only state is the live client). -/
structure RedisManager where
deriving DecidableEq

/-- `RedisManager.__init__`: build the client, then `_test_connection`;
a connection failure propagates as an exception. -/
def redisManagerInit (p : PingOutcome) : Except String RedisManager := do
  testConnection p
  pure ⟨⟩

/-- The constructed orchestrator. -/
structure DistributedCore where
  redis : RedisManager
deriving DecidableEq

/-- `DistributedTransformCore.__init__`: `self.redis = RedisManager()`,
with no exception handling around it. -/
def distributedCoreInit (p : PingOutcome) : Except String DistributedCore := do
  let r ← redisManagerInit p
  pure ⟨r⟩

/-- Claim C1, counterexample to the claim as stated: when the ping to
the coordination store fails, the orchestrator's construction does not
succeed — the connection error escapes the constructor, so there is no
local fallback mode. -/
theorem orchestrator_construction_counterexample :
    distributedCoreInit (.connError "Connection refused") =
      .error "Could not connect to Redis: Connection refused" := by rfl

/-- Claim C1 (amended): if the connection to the Coordination Store
cannot be established when the distributed Orchestrator is constructed,
`_test_connection` raises `Could not connect to Redis: …` and the
exception propagates out of the constructor: construction fails, and no
fallback mode exists; only a successful ping yields a constructed
orchestrator. -/
theorem orchestrator_construction_fails_without_store :
    (∀ msg, distributedCoreInit (.connError msg) =
      .error ("Could not connect to Redis: " ++ msg)) ∧
    distributedCoreInit .ok = .ok ⟨⟨⟩⟩ := by
  exact ⟨fun msg => rfl, rfl⟩

/-! ## Polling loop and reassembly (`_wait_for_results`, lines 226-273)

`distributed_core.py` defines `_wait_for_results` twice; the second
definition (lines 226-273) shadows the first, so it is the one embedded
here.  Wall-clock time is modelled in tenths of a second: an iteration
of the `while` loop reads the store at an absolute time `t` and observes
a `completed_chunks` value `c`; `polls` lists the `(t, c)` of every
iteration the loop gets to run before `TIMEOUT` would elapse (the loop
always runs at least one iteration, since `TIMEOUT` is 3600 s).  The
source's `current_time - last_progress_update >= 1` (seconds) becomes
`10 ≤ t - last`; times are non-decreasing in any real run, so truncated
subtraction agrees with the source. -/

/-- The `while` loop of `_wait_for_results` (lines 232-248): `last` is
`last_progress_update` (initially 0, far below any wall-clock time, so
the first iteration always reports progress), the second component of
the result is the final value of `completed`, and the first records the
`completed` value of every invocation of `progress_callback` — the
callback itself receives `completed / total_chunks`, recovered exactly
by `progressValues`. -/
def waitLoop (total : Nat) : List (Nat × Nat) → Nat → Nat → List Nat × Nat
  | [], _last, completed => ([], completed)
  | (t, c) :: rest, last, _completed =>
    if 10 ≤ t - last then
      if c = total then ([c], c)
      else
        let x := waitLoop total rest t c
        (c :: x.1, x.2)
    else
      if c = total then ([], c)
      else waitLoop total rest last c

/-- The fractions actually passed to the progress callback
(`progress_callback(completed / total_chunks)`, line 241) for a
recorded trace of `completed` values. -/
def progressValues (cbs : List Nat) (total : Nat) : List ℚ :=
  cbs.map (fun c => (c : ℚ) / (total : ℚ))

/-- `insert` step of a stable sort on `chunk_id` keys, modelling
`processed_chunks.sort(key=lambda x: x[0])` (line 262). -/
def insertByKey (p : Nat × List Row) :
    List (Nat × List Row) → List (Nat × List Row)
  | [] => [p]
  | q :: qs => if p.1 ≤ q.1 then p :: q :: qs else q :: insertByKey p qs

/-- Sort the collected `(chunk_id, chunk)` pairs by `chunk_id`. -/
def sortByChunkId : List (Nat × List Row) → List (Nat × List Row)
  | [] => []
  | p :: ps => insertByKey p (sortByChunkId ps)

/-- Result collection of `_wait_for_results` (lines 253-266): fetch every
`chunk_id` in `[0, total_chunks)`, keep the chunks whose result blob is
present, sort by `chunk_id`, and concatenate
(`pd.concat(..., ignore_index=True)`); with no present chunk, fall back
to `base_df`. -/
def collectResults (get : Nat → Option (List Row)) (total : Nat)
    (base : List Row) : List Row :=
  let processed := (List.range total).filterMap
    (fun cid => (get cid).map (fun d => (cid, d)))
  let sorted := sortByChunkId processed
  if sorted.isEmpty then base
  else (sorted.map (fun p => p.2)).flatten

/-- `_wait_for_results` (lines 226-273): run the polling loop; if the
final `completed` differs from `total_chunks`, raise
`TimeoutError("Processing timeout")`; otherwise collect the results from
the store `s`, clean up the job, and return the reassembled dataframe.
Alongside the `Except` outcome, the values passed to the progress
callback are returned. -/
def waitForResults (s : Store) (jobId : String) (base : List Row)
    (total : Nat) (polls : List (Nat × Nat)) :
    List Nat × Except String (Store × List Row) :=
  let w := waitLoop total polls 0 0
  if w.2 ≠ total then (w.1, .error "Processing timeout")
  else (w.1, .ok (cleanupJob s jobId, collectResults (getResult s jobId) total base))

/-! ## `process_dataframe` (lines 64-143) -/

/-- One row's search text (line 139): the row's cells in the command
map's columns, joined by single spaces. -/
def rowText (commands : List (String × String)) (row : Row) : String :=
  String.intercalate " " (commands.map (fun c => cellStr row c.1))

/-- `_prepare_search_filter` (lines 131-143): with no (or an empty)
search description, return the dataframe's index list; otherwise build
one search text per row, ask the row-filter collaborator `matcher`, and
keep the positions marked matching. -/
def prepareSearchFilter (df : List Row) (searchDesc : Option String)
    (commands : List (String × String))
    (matcher : List String → String → List Bool) : List Nat :=
  match searchDesc with
  | none => List.range df.length
  | some s =>
    if s = "" then List.range df.length
    else
      (matcher (df.map (rowText commands)) s).enum.filterMap
        (fun p => if p.2 then some p.1 else none)

/-- Outcome of one `process_dataframe` call: the coordination store as
the call leaves it, the returned dataframe, the returned error message,
and the trace of progress-callback invocations (recorded as the
`completed` value of each; the reported fraction is recovered by
`progressValues`). -/
structure ProcResult where
  store : Store
  table : List Row
  error : Option String
  callbacks : List Nat
deriving DecidableEq

/-- `filtered_df = df.iloc[matching_rows]` (line 82). -/
def filteredDf (df : List Row) (matching : List Nat) : List Row :=
  matching.filterMap (fun i => df[i]?)

/-- `self._split_dataframe(filtered_df)` (line 86): the chunk row-ranges
applied back to the filtered rows. -/
def chunksOf (filtered : List Row) : List (List Row) :=
  (chunkRanges filtered.length CHUNK_SIZE).map
    (fun r => (filtered.drop r.1).take (r.2 - r.1))

/-- Lines 93-114: record the job metadata
(`total_chunks`, `completed_chunks = 0`, `status = processing`, the
serialized commands, `task_type = transform`) and queue one task per
chunk, in chunk-id order. -/
def publishJob (store0 : Store) (jobId : String)
    (commands : List (String × String)) (chunks : List (List Row)) : Store :=
  chunks.enum.foldl
    (fun s p => addTask s ⟨jobId, p.1, p.2, chunks.length, "transform"⟩)
    (setJobMetadata store0 jobId
      ⟨chunks.length, 0, "processing", commands, "transform"⟩)

/-- Result blobs written into the store by concurrent workers while the
orchestrator waits (`RedisManager.store_result`, called from
`worker_process`). -/
def addWorkerResults (s : Store) (ww : List (String × Nat × List Row)) :
    Store :=
  { s with results := ww ++ s.results }

/-- `process_dataframe` (lines 64-129).  `jobId` stands for the fresh
`uuid4`; `matcher` is the row-filter collaborator
(`snowflake.find_matching_rows`); `polls` drives the polling loop as in
`waitLoop`; `workerWrites` are the result blobs concurrent workers have
stored into the coordination store by the time the wait ends (the
orchestrator itself writes no result). -/
def processDataframe (jobId : String) (store0 : Store) (df : List Row)
    (commands : List (String × String)) (searchDesc : Option String)
    (matcher : List String → String → List Bool)
    (polls : List (Nat × Nat))
    (workerWrites : List (String × Nat × List Row)) : ProcResult :=
  let matching := prepareSearchFilter df searchDesc commands matcher
  if matching.isEmpty then ⟨store0, df, some "No matching rows found", []⟩
  else
    let chunks := chunksOf (filteredDf df matching)
    if chunks.length = 0 then
      ⟨store0, df, some "No chunks created for processing", []⟩
    else
      let store3 := addWorkerResults (publishJob store0 jobId commands chunks)
        workerWrites
      match waitForResults store3 jobId df chunks.length polls with
      | (cbs, .ok (store4, result)) => ⟨store4, result, none, cbs⟩
      | (cbs, .error msg) =>
        ⟨cleanupJob store3 jobId, df, some ("Processing timeout: " ++ msg), cbs⟩

lemma buildRanges_length (base rem : Nat) :
    ∀ n start i, (buildRanges base rem start i n).length = n := by
  intro n
  induction n with
  | zero => intro start i; rfl
  | succ n ih => intro start i; simp [buildRanges, ih]

lemma chunkRanges_ne_nil (t c : Nat) (hc : 0 < c) : chunkRanges t c ≠ [] := by
  unfold chunkRanges
  split
  · simp
  · rename_i h
    push_neg at h
    have hn := numChunks_pos t c hc h
    intro hnil
    have := buildRanges_length (t / numChunks t c) (t % numChunks t c)
      (numChunks t c) 0 0
    rw [hnil] at this
    simp at this
    omega

lemma filterMap_getElem_range (l : List Row) :
    (List.range l.length).filterMap (fun i => l[i]?) = l := by
  induction l with
  | nil => rfl
  | cons a t ih =>
    rw [List.length_cons, List.range_succ_eq_map, List.filterMap_cons,
      List.filterMap_map]
    rw [List.getElem?_cons_zero]
    have hcmp : ((fun i => (a :: t)[i]?) ∘ Nat.succ) = fun i => t[i]? := by
      funext i
      simp
    rw [hcmp, ih]

lemma waitForResults_timeout (s : Store) (jobId : String) (base : List Row)
    (total : Nat) (polls : List (Nat × Nat))
    (h : (waitLoop total polls 0 0).2 ≠ total) :
    waitForResults s jobId base total polls =
      ((waitLoop total polls 0 0).1, .error "Processing timeout") := by
  unfold waitForResults
  rw [if_pos h]

lemma filterMap_enumFrom_all_false :
    ∀ (l : List Bool) (n : Nat), (∀ b ∈ l, b = false) →
      (List.enumFrom n l).filterMap
        (fun p => if p.2 then some p.1 else none) = [] := by
  intro l
  induction l with
  | nil => intro n _; rfl
  | cons b t ih =>
    intro n h
    have hb : b = false := h b (List.mem_cons_self b t)
    subst hb
    have ht : ∀ x ∈ t, x = false := fun x hx => h x (List.mem_cons_of_mem _ hx)
    show ((n, false) :: List.enumFrom (n + 1) t).filterMap _ = []
    rw [List.filterMap_cons]
    simp only [Bool.false_eq_true, if_false]
    exact ih (n + 1) ht

/-- Claim C10: calling `process_dataframe` on a zero-row table with no
search description returns the original empty table with the error
message `No matching rows found`: `_prepare_search_filter` returns the
table's (empty) index list even when no filter was requested, and the
no-match branch then fires. -/
theorem empty_table_no_filter_returns_no_match (jobId : String)
    (store0 : Store) (commands : List (String × String))
    (matcher : List String → String → List Bool)
    (polls : List (Nat × Nat)) (ww : List (String × Nat × List Row)) :
    prepareSearchFilter [] none commands matcher = [] ∧
    processDataframe jobId store0 [] commands none matcher polls ww =
      ⟨store0, [], some "No matching rows found", []⟩ :=
  ⟨rfl, rfl⟩

/-- Claim C6: whenever a search description is supplied and the
row-filter collaborator marks zero rows matching, `process_dataframe`
returns the original table with `No matching rows found`, records no
job metadata and publishes no task — the coordination store is left
exactly as it was. -/
theorem no_matching_rows_short_circuit (jobId : String) (store0 : Store)
    (df : List Row) (commands : List (String × String)) (s : String)
    (matcher : List String → String → List Bool)
    (polls : List (Nat × Nat)) (ww : List (String × Nat × List Row))
    (hs : s ≠ "")
    (hnone : ∀ b ∈ matcher (df.map (rowText commands)) s, b = false) :
    processDataframe jobId store0 df commands (some s) matcher polls ww =
      ⟨store0, df, some "No matching rows found", []⟩ := by
  have hm : prepareSearchFilter df (some s) commands matcher = [] := by
    simp only [prepareSearchFilter]
    rw [if_neg hs]
    exact filterMap_enumFrom_all_false _ 0 hnone
  simp only [processDataframe, hm, List.isEmpty_nil, if_true]

/-- Witness for `no_matching_rows_short_circuit`: a 10-row table whose
search description matches 0 rows. -/
theorem no_matching_rows_short_circuit_witness :
    ("quick" : String) ≠ "" ∧
    (∀ b ∈ (fun (ts : List String) (_ : String) =>
        ts.map (fun _ => false))
        ((List.replicate 10 ([("a", "x")] : Row)).map
          (rowText [("a", "cmd")])) "quick", b = false) ∧
    processDataframe "job-6" ⟨[], [], []⟩
        (List.replicate 10 [("a", "x")]) [("a", "cmd")] (some "quick")
        (fun ts _ => ts.map (fun _ => false)) [(100, 0)] [] =
      ⟨⟨[], [], []⟩, List.replicate 10 [("a", "x")],
        some "No matching rows found", []⟩ :=
  ⟨by decide, by decide,
    no_matching_rows_short_circuit "job-6" ⟨[], [], []⟩
      (List.replicate 10 [("a", "x")]) [("a", "cmd")] "quick"
      (fun ts _ => ts.map (fun _ => false)) [(100, 0)] []
      (by decide) (by decide)⟩

set_option maxRecDepth 10000

/-- Claim C4, counterexample to the claim as stated: two timed-out jobs
with different progress — 3 of 4 chunks completed versus 0 of 1 — yield
the identical fixed error message `Processing timeout: Processing
timeout`; the diagnostic therefore does not carry the pair
`(completed, total)`.  (`_wait_for_results` raises
`TimeoutError("Processing timeout")` with no counts in it, and
`process_dataframe` prefixes the caught message with
`Processing timeout: `.) -/
theorem timeout_message_counterexample :
    (processDataframe "job-a" ⟨[], [], []⟩
        (List.replicate 180 [("a", "x")]) [("a", "cmd")] none
        (fun ts _ => ts.map (fun _ => false)) [(100, 3)] []).error =
      some "Processing timeout: Processing timeout" ∧
    (processDataframe "job-b" ⟨[], [], []⟩
        [[("a", "x")], [("a", "y")]] [("a", "cmd")] none
        (fun ts _ => ts.map (fun _ => false)) [(100, 0)] []).error =
      some "Processing timeout: Processing timeout" := by decide

/-- Claim C4 (amended): if `completed_chunks` never reaches
`total_chunks` before the timeout elapses, `process_dataframe` deletes
the job's metadata and all of its result entries from the coordination
store and returns the original input table with the fixed timeout
message `Processing timeout: Processing timeout` — the diagnostic does
not include the `(completed, total)` counts. -/
theorem timeout_purges_job (jobId : String) (store0 : Store)
    (df : List Row) (commands : List (String × String))
    (matcher : List String → String → List Bool)
    (polls : List (Nat × Nat)) (ww : List (String × Nat × List Row))
    (hdf : df ≠ [])
    (hto : (waitLoop (chunkRanges df.length CHUNK_SIZE).length polls 0 0).2 ≠
      (chunkRanges df.length CHUNK_SIZE).length) :
    (processDataframe jobId store0 df commands none matcher polls ww).table =
      df ∧
    (processDataframe jobId store0 df commands none matcher polls ww).error =
      some "Processing timeout: Processing timeout" ∧
    (∀ p ∈ (processDataframe jobId store0 df commands none matcher polls
        ww).store.jobs, p.1 ≠ jobId) ∧
    (∀ r ∈ (processDataframe jobId store0 df commands none matcher polls
        ww).store.results, r.1 ≠ jobId) := by
  have hne : ¬ ((List.range df.length).isEmpty = true) := by
    rcases df with _ | ⟨a, t⟩
    · exact absurd rfl hdf
    · simp [List.range_succ_eq_map]
  have hfil : filteredDf df (List.range df.length) = df :=
    filterMap_getElem_range df
  have hlen : (chunksOf df).length = (chunkRanges df.length CHUNK_SIZE).length := by
    unfold chunksOf
    rw [List.length_map]
  have hpos : ¬ ((chunksOf df).length = 0) := by
    rw [hlen]
    intro h0
    exact chunkRanges_ne_nil df.length CHUNK_SIZE (by decide)
      (List.length_eq_zero.mp h0)
  have hto2 : (waitLoop (chunksOf df).length polls 0 0).2 ≠
      (chunksOf df).length := by
    rw [hlen]; exact hto
  have hred : processDataframe jobId store0 df commands none matcher polls ww =
      ⟨cleanupJob (addWorkerResults
          (publishJob store0 jobId commands (chunksOf df)) ww) jobId, df,
        some "Processing timeout: Processing timeout",
        (waitLoop (chunksOf df).length polls 0 0).1⟩ := by
    simp only [processDataframe, prepareSearchFilter]
    rw [if_neg hne, hfil, if_neg hpos,
      waitForResults_timeout _ _ _ _ _ hto2]
    rfl
  rw [hred]
  refine ⟨rfl, rfl, ?_, ?_⟩
  · intro p hp
    simp only [cleanupJob, List.mem_filter, bne_iff_ne] at hp
    exact hp.2
  · intro r hr
    simp only [cleanupJob, List.mem_filter, bne_iff_ne] at hr
    exact hr.2

/-- Witness for `timeout_purges_job`: a 2-row job (one chunk) that
observes `completed = 0` at its single poll, with one stale result in
the store for the job and one for another job. -/
theorem timeout_purges_job_witness :
    ([[("a", "x")], [("a", "y")]] : List Row) ≠ [] ∧
    (waitLoop (chunkRanges ([[("a", "x")], [("a", "y")]] : List Row).length
        CHUNK_SIZE).length [(100, 0)] 0 0).2 ≠
      (chunkRanges ([[("a", "x")], [("a", "y")]] : List Row).length
        CHUNK_SIZE).length ∧
    ((processDataframe "job-4" ⟨[], [], []⟩ [[("a", "x")], [("a", "y")]]
        [("a", "cmd")] none (fun ts _ => ts.map (fun _ => false))
        [(100, 0)] [("job-4", 0, [[("a", "r")]]), ("other", 0, [])]).table =
      [[("a", "x")], [("a", "y")]] ∧
    (processDataframe "job-4" ⟨[], [], []⟩ [[("a", "x")], [("a", "y")]]
        [("a", "cmd")] none (fun ts _ => ts.map (fun _ => false))
        [(100, 0)] [("job-4", 0, [[("a", "r")]]), ("other", 0, [])]).error =
      some "Processing timeout: Processing timeout" ∧
    (∀ p ∈ (processDataframe "job-4" ⟨[], [], []⟩ [[("a", "x")], [("a", "y")]]
        [("a", "cmd")] none (fun ts _ => ts.map (fun _ => false))
        [(100, 0)] [("job-4", 0, [[("a", "r")]]),
          ("other", 0, [])]).store.jobs, p.1 ≠ "job-4") ∧
    (∀ r ∈ (processDataframe "job-4" ⟨[], [], []⟩ [[("a", "x")], [("a", "y")]]
        [("a", "cmd")] none (fun ts _ => ts.map (fun _ => false))
        [(100, 0)] [("job-4", 0, [[("a", "r")]]),
          ("other", 0, [])]).store.results, r.1 ≠ "job-4")) :=
  ⟨by decide, by decide,
    timeout_purges_job "job-4" ⟨[], [], []⟩ [[("a", "x")], [("a", "y")]]
      [("a", "cmd")] (fun ts _ => ts.map (fun _ => false)) [(100, 0)]
      [("job-4", 0, [[("a", "r")]]), ("other", 0, [])]
      (by decide) (by decide)⟩

lemma insertByKey_of_le (p : Nat × List Row) (l : List (Nat × List Row))
    (h : ∀ q ∈ l, p.1 ≤ q.1) : insertByKey p l = p :: l := by
  cases l with
  | nil => rfl
  | cons q qs =>
    unfold insertByKey
    rw [if_pos (h q (List.mem_cons_self q qs))]

lemma sortByChunkId_sorted (l : List (Nat × List Row))
    (h : l.Pairwise (fun a b => a.1 ≤ b.1)) : sortByChunkId l = l := by
  induction l with
  | nil => rfl
  | cons p ps ih =>
    rw [sortByChunkId, ih (List.Pairwise.of_cons h)]
    exact insertByKey_of_le p ps (List.pairwise_cons.mp h).1

lemma processed_pairwise (get : Nat → Option (List Row)) (total : Nat) :
    ((List.range total).filterMap
      (fun cid => (get cid).map (fun d => (cid, d)))).Pairwise
      (fun a b => a.1 ≤ b.1) := by
  refine List.Pairwise.filterMap _ ?_ (List.pairwise_lt_range total)
  intro a a' hlt b hb b' hb'
  rcases Option.map_eq_some'.mp hb with ⟨d, _, hd⟩
  rcases Option.map_eq_some'.mp hb' with ⟨d', _, hd'⟩
  rw [← hd, ← hd']
  exact Nat.le_of_lt hlt

lemma flatten_processed (get : Nat → Option (List Row)) :
    ∀ l : List Nat,
      ((l.filterMap (fun cid => (get cid).map (fun d => (cid, d)))).map
        (fun p => p.2)).flatten =
      (l.map (fun cid => (get cid).getD [])).flatten := by
  intro l
  induction l with
  | nil => rfl
  | cons a t ih =>
    rw [List.map_cons, List.filterMap_cons]
    cases h : get a with
    | none => simp only [Option.map_none', Option.getD_none, h]
              rw [List.flatten_cons, ih]
              rfl
    | some d => simp only [Option.map_some', Option.getD_some, h]
                rw [List.map_cons, List.flatten_cons, List.flatten_cons, ih]

/-- Claim C7: after completion, reassembly fetches the result of every
`chunk_id` in `[0, total_chunks)`; a chunk whose result blob is absent
contributes nothing instead of failing the job; the present chunks are
concatenated in ascending `chunk_id` order with the row order inside
each chunk preserved; and when no chunk result is present at all, the
pre-job base table is returned unchanged. -/
theorem reassembly_ordered_skip_missing (get : Nat → Option (List Row))
    (total : Nat) (base : List Row) :
    collectResults get total base =
      if ∀ cid ∈ List.range total, get cid = none then base
      else ((List.range total).map (fun cid => (get cid).getD [])).flatten := by
  simp only [collectResults]
  have hsort := sortByChunkId_sorted _ (processed_pairwise get total)
  rw [hsort]
  by_cases h : ∀ cid ∈ List.range total, get cid = none
  · rw [if_pos h]
    have hnil : (List.range total).filterMap
        (fun cid => (get cid).map (fun d => (cid, d))) = [] := by
      rw [List.filterMap_eq_nil_iff]
      intro a ha
      rw [h a ha]
      rfl
    rw [hnil]
    rfl
  · rw [if_neg h]
    have hne : (List.range total).filterMap
        (fun cid => (get cid).map (fun d => (cid, d))) ≠ [] := by
      intro hnil
      apply h
      intro a ha
      exact Option.map_eq_none'.mp ((List.filterMap_eq_nil_iff.mp hnil) a ha)
    have hemp : ((List.range total).filterMap
        (fun cid => (get cid).map (fun d => (cid, d)))).isEmpty ≠ true := by
      simpa [List.isEmpty_iff] using hne
    rw [if_neg hemp]
    exact flatten_processed get (List.range total)

/-- Claim C9, counterexample to the claim as stated: a job that
completes within the timeout (its single chunk reports done at the
second poll, 0.1 s after the first) without the progress callback ever
receiving 1.0 — the terminal iteration falls inside the
once-per-second progress gate, and nothing reports 1.0 after the loop
breaks.  The callback saw only the value 0. -/
theorem terminal_progress_counterexample :
    (processDataframe "job-9" ⟨[], [], []⟩ [[("a", "x")], [("a", "y")]]
        [("a", "cmd")] none (fun ts _ => ts.map (fun _ => false))
        [(100, 0), (101, 1)] [("job-9", 0, [[("a", "r0")]])]).error =
      none ∧
    (processDataframe "job-9" ⟨[], [], []⟩ [[("a", "x")], [("a", "y")]]
        [("a", "cmd")] none (fun ts _ => ts.map (fun _ => false))
        [(100, 0), (101, 1)] [("job-9", 0, [[("a", "r0")]])]).callbacks =
      [0] ∧
    (1 : ℚ) ∉ progressValues (processDataframe "job-9" ⟨[], [], []⟩
        [[("a", "x")], [("a", "y")]] [("a", "cmd")] none
        (fun ts _ => ts.map (fun _ => false)) [(100, 0), (101, 1)]
        [("job-9", 0, [[("a", "r0")]])]).callbacks 1 := by
  have hcb : (processDataframe "job-9" ⟨[], [], []⟩
      [[("a", "x")], [("a", "y")]] [("a", "cmd")] none
      (fun ts _ => ts.map (fun _ => false)) [(100, 0), (101, 1)]
      [("job-9", 0, [[("a", "r0")]])]).callbacks = [0] := by decide
  refine ⟨by decide, hcb, ?_⟩
  rw [hcb]
  simp [progressValues]

/-- Claim C9 (amended): the polling loop reports
`completed / total_chunks` at most once per second; the terminal 1.0 is
delivered exactly when the completion-detecting iteration falls outside
that gate — whenever at least one second has elapsed since the last
progress update at the iteration that observes
`completed = total_chunks`, the callback is invoked with 1.0.  A run
whose completing iteration falls inside the gate never reports 1.0 (see
the counterexample). -/
theorem terminal_progress_gate (total t c last comp : Nat)
    (rest : List (Nat × Nat)) (htotal : 0 < total) (hc : c = total)
    (hgate : last + 10 ≤ t) :
    (1 : ℚ) ∈ progressValues (waitLoop total ((t, c) :: rest) last comp).1
      total := by
  subst hc
  unfold waitLoop
  rw [if_pos (by omega : 10 ≤ t - last), if_pos rfl]
  have hq : ((c : ℚ) / (c : ℚ)) = 1 := by
    have hc0 : (c : ℚ) ≠ 0 := by
      exact_mod_cast Nat.pos_iff_ne_zero.mp htotal
    exact div_self hc0
  simp [progressValues, hq]

/-- Witness for `terminal_progress_gate`: a job of 4 chunks whose
completion is observed 10 s into the wait. -/
theorem terminal_progress_gate_witness :
    0 < 4 ∧ (4 : Nat) = 4 ∧ 0 + 10 ≤ 100 ∧
    (1 : ℚ) ∈ progressValues (waitLoop 4 [(100, 4)] 0 0).1 4 :=
  ⟨by decide, rfl, by decide,
    terminal_progress_gate 4 100 4 0 0 [] (by decide) rfl (by decide)⟩

/-! ## Progress counter (claim C8)

`set_job_metadata` initialises `completed_chunks` to 0
(`process_dataframe` line 97); the only mutation is
`RedisManager.increment_completed` — a single atomic
`HINCRBY job:{id} completed_chunks 1` — which `worker_process` calls
exactly once per chunk it finishes, after storing that chunk's result
(worker.py lines 137-142).  A job run is abstracted as the list of
chunk ids whose completion was reported, in order: the queue hands each
published task to at most one worker, and the job publishes one task
per chunk id in `[0, total_chunks)`, so the list has no duplicates and
its entries are below `total_chunks`. -/

/-- `RedisManager.increment_completed`: atomic increment by exactly 1. -/
def incrementCompleted (m : JobMeta) : JobMeta :=
  { m with completedChunks := m.completedChunks + 1 }

/-- Job metadata after the given sequence of chunk completions. -/
def runWorkers (events : List Nat) (m : JobMeta) : JobMeta :=
  events.foldl (fun s _ => incrementCompleted s) m

/-- The `completed_chunks` values observable over a job's lifetime: one
observation after every prefix of the completion sequence. -/
def observedCounts (events : List Nat) (m : JobMeta) : List Nat :=
  (List.range (events.length + 1)).map
    (fun k => (runWorkers (events.take k) m).completedChunks)

lemma runWorkers_count (events : List Nat) :
    ∀ m : JobMeta, (runWorkers events m).completedChunks =
      m.completedChunks + events.length := by
  induction events with
  | nil => intro m; rfl
  | cons e t ih =>
    intro m
    show (runWorkers t (incrementCompleted m)).completedChunks = _
    rw [ih]
    simp [incrementCompleted]
    omega

/-- Claim C8: a job's `completed_chunks` starts at 0 and is modified
only by atomic increments of one, at most once per chunk of the job;
hence every observed value lies in `[0, total_chunks]` and successive
observations never decrease. -/
theorem completed_chunks_bounded_monotone (events : List Nat)
    (m : JobMeta) (h0 : m.completedChunks = 0) (hnd : events.Nodup)
    (hlt : ∀ e ∈ events, e < m.totalChunks) :
    (∀ v ∈ observedCounts events m, v ≤ m.totalChunks) ∧
    List.Chain' (· ≤ ·) (observedCounts events m) := by
  have hcard : events.length ≤ m.totalChunks := by
    have hsub : events.toFinset ⊆ Finset.range m.totalChunks := by
      intro x hx
      rw [Finset.mem_range]
      exact hlt x (List.mem_toFinset.mp hx)
    have hc := Finset.card_le_card hsub
    rw [Finset.card_range, List.toFinset_card_of_nodup hnd] at hc
    exact hc
  have hval : ∀ k, (runWorkers (events.take k) m).completedChunks =
      min k events.length := by
    intro k
    rw [runWorkers_count, h0, List.length_take]
    omega
  constructor
  · intro v hv
    simp only [observedCounts, List.mem_map] at hv
    rcases hv with ⟨k, _, rfl⟩
    rw [hval]
    omega
  · have hpw : (observedCounts events m).Pairwise (· ≤ ·) := by
      unfold observedCounts
      refine List.Pairwise.map _ ?_
        (List.pairwise_lt_range (events.length + 1))
      intro a b hab
      rw [hval, hval]
      omega
    exact hpw.chain'

/-- Witness for `completed_chunks_bounded_monotone`: a 3-chunk job whose
chunks complete in the order 2, 0, 1. -/
theorem completed_chunks_bounded_monotone_witness :
    (⟨3, 0, "processing", [], "transform"⟩ : JobMeta).completedChunks = 0 ∧
    ([2, 0, 1] : List Nat).Nodup ∧
    (∀ e ∈ ([2, 0, 1] : List Nat),
      e < (⟨3, 0, "processing", [], "transform"⟩ : JobMeta).totalChunks) ∧
    ((∀ v ∈ observedCounts [2, 0, 1]
        ⟨3, 0, "processing", [], "transform"⟩,
      v ≤ (⟨3, 0, "processing", [], "transform"⟩ : JobMeta).totalChunks) ∧
     List.Chain' (· ≤ ·) (observedCounts [2, 0, 1]
        ⟨3, 0, "processing", [], "transform"⟩)) :=
  ⟨rfl, by decide, by decide,
    completed_chunks_bounded_monotone [2, 0, 1]
      ⟨3, 0, "processing", [], "transform"⟩ rfl (by decide) (by decide)⟩

end DataTransform
